import Mathlib

/-!
Verification of the LLM gateway and RAG pipeline of the Go_AI_Backend
repository, as a shallow embedding in Lean 4.

Conventions of the embedding:
* Go strings are Lean `String` (rune counts are `String.length`); the
  chunker works over `List Char` (the Go code converts to `[]rune`).
* Go `(value, error)` returns are `Except String α` when the value slot is
  unused on error, and `α × Option String` where a caller reads the value
  slot regardless (the reranker).
* `float64` scores are modelled as `ℚ`: the code only copies, parses and
  compares scores, never performs arithmetic on them.
* External effects (provider chat completions, vector-store search,
  `encoding/json` parsing) are oracle parameters: a function giving the
  outcome of each call the Go code makes, so that call counts and outcomes
  are explicit.
-/

namespace GoAI

/-- `internal/llm/provider.go` `ChatResponse`; fields not read by the code
under study (`ID`, token splits, cost, latency) are omitted. -/
structure ChatResponse where
  provider : String
  model : String
  content : String
  totalTokens : Nat
  deriving Repr, DecidableEq

/-- Errors produced by the gateway itself (`internal/llm` gateway file):
`fmt.Errorf("provider %q not configured", name)` and
`fmt.Errorf("all retries exhausted for %s: %w", providerName, lastErr)`.
The composite error keeps the provider name and the wrapped last cause. -/
inductive GwError where
  | providerNotConfigured (name : String)
  | allRetriesExhausted (provider : String) (cause : String)
  deriving Repr, DecidableEq

/-- The gateway configuration (`gateway` struct): the set of configured
provider names, the default provider, the fallback provider and
`maxRetries`. -/
structure GatewayConfig where
  providers : List String
  defaultProvider : String
  fallbackProvider : String
  maxRetries : Nat
  deriving Repr, DecidableEq

/-- Behaviour of the configured providers: `behavior p n` is the outcome of
the `n`-th `ChatCompletion` call made to provider `p` inside one
`chatWithRetry` loop. -/
def ProviderBehavior := String → Nat → Except String ChatResponse

/-- The retry loop body of `chatWithRetry` (`for attempt := 0; attempt <=
g.maxRetries; attempt++`).  `attempt` is the current attempt index,
`attemptsLeft` the number of loop iterations still to run (initially
`maxRetries + 1`).  Returns the Go result together with the number of
`ChatCompletion` calls made.  The backoff sleep and context cancellation
are timing behaviour and are not modelled. -/
def retryLoop (behavior : Nat → Except String ChatResponse) (pname : String) :
    Nat → Nat → Except GwError ChatResponse × Nat
  | _, 0 => (.error (.allRetriesExhausted pname ""), 0)
  | attempt, n + 1 =>
    match behavior attempt with
    | .ok resp => (.ok resp, 1)
    | .error e =>
      match n with
      | 0 => (.error (.allRetriesExhausted pname e), 1)
      | m + 1 =>
        let rest := retryLoop behavior pname (attempt + 1) (m + 1)
        (rest.1, rest.2 + 1)

/-- `chatWithRetry`: provider lookup, then the retry loop with
`maxRetries + 1` iterations.  Second component counts `ChatCompletion`
calls (zero when the provider is not configured). -/
def chatWithRetry (cfg : GatewayConfig) (behavior : ProviderBehavior)
    (pname : String) : Except GwError ChatResponse × Nat :=
  if pname ∈ cfg.providers then
    retryLoop (behavior pname) pname 0 (cfg.maxRetries + 1)
  else
    (.error (.providerNotConfigured pname), 0)

/-- `gateway.Chat`: resolve the provider name (request override or
default), run `chatWithRetry` on it, and on failure run `chatWithRetry`
once more on the fallback provider when one is configured and distinct.
Second component is the total number of `ChatCompletion` calls. -/
def gatewayChat (cfg : GatewayConfig) (behavior : ProviderBehavior)
    (reqProvider : String) : Except GwError ChatResponse × Nat :=
  let pname := if reqProvider = "" then cfg.defaultProvider else reqProvider
  let r1 := chatWithRetry cfg behavior pname
  match r1.1 with
  | .ok resp => (.ok resp, r1.2)
  | .error e =>
    if cfg.fallbackProvider ≠ "" ∧ cfg.fallbackProvider ≠ pname then
      let r2 := chatWithRetry cfg behavior cfg.fallbackProvider
      (r2.1, r1.2 + r2.2)
    else
      (.error e, r1.2)

/-- A provider whose every attempt fails exhausts the loop: `k + 1`
iterations starting at `attempt` make `k + 1` calls and surface the error
of the final attempt `attempt + k`. -/
theorem retryLoop_all_fail (behavior : Nat → Except String ChatResponse)
    (pname : String) (e : Nat → String)
    (hfail : ∀ n, behavior n = .error (e n)) :
    ∀ k attempt, retryLoop behavior pname attempt (k + 1) =
      (.error (.allRetriesExhausted pname (e (attempt + k))), k + 1) := by
  intro k
  induction k with
  | zero =>
    intro attempt
    rw [retryLoop, hfail attempt]
    rfl
  | succ m ih =>
    intro attempt
    rw [retryLoop, hfail attempt]
    show ((retryLoop behavior pname (attempt + 1) (m + 1)).1,
          (retryLoop behavior pname (attempt + 1) (m + 1)).2 + 1) = _
    rw [ih (attempt + 1)]
    have : attempt + 1 + m = attempt + (m + 1) := by omega
    rw [this]

/-- A permanently failing provider makes `maxRetries + 1` `ChatCompletion`
calls inside `chatWithRetry` and surfaces the composite error wrapping the
last attempt's cause. -/
theorem chatWithRetry_all_fail (cfg : GatewayConfig)
    (behavior : ProviderBehavior) (pname : String) (e : Nat → String)
    (hmem : pname ∈ cfg.providers)
    (hfail : ∀ n, behavior pname n = .error (e n)) :
    chatWithRetry cfg behavior pname =
      (.error (.allRetriesExhausted pname (e cfg.maxRetries)),
       cfg.maxRetries + 1) := by
  unfold chatWithRetry
  rw [if_pos hmem, retryLoop_all_fail (behavior pname) pname e hfail cfg.maxRetries 0]
  rw [Nat.zero_add]

/-- C1: for a primary backend whose every chat attempt fails, a Gateway
chat call with `maxRetries = 2` and no fallback configured makes exactly 3
`ChatCompletion` attempts against that backend and returns the single
composite "all retries exhausted" error wrapping the last cause (the error
of attempt index 2). -/
theorem chat_failing_primary_no_fallback_three_attempts
    (cfg : GatewayConfig) (behavior : ProviderBehavior) (pname : String)
    (e : Nat → String)
    (hp : pname ≠ "") (hmem : pname ∈ cfg.providers)
    (hmr : cfg.maxRetries = 2) (hfb : cfg.fallbackProvider = "")
    (hfail : ∀ n, behavior pname n = .error (e n)) :
    gatewayChat cfg behavior pname =
      (.error (.allRetriesExhausted pname (e 2)), 3) := by
  have h1 := chatWithRetry_all_fail cfg behavior pname e hmem hfail
  rw [hmr] at h1
  simp only [gatewayChat, if_neg hp, h1]
  simp [hfb]

def cfgC1 : GatewayConfig :=
  { providers := ["openai"], defaultProvider := "openai",
    fallbackProvider := "", maxRetries := 2 }

def behaviorAllFail : ProviderBehavior := fun _ _ => .error "boom"

/-- Witness for C1 at a concrete configuration and provider behaviour. -/
theorem chat_failing_primary_no_fallback_three_attempts_witness :
    ("openai" : String) ≠ "" ∧ "openai" ∈ cfgC1.providers ∧
    cfgC1.maxRetries = 2 ∧ cfgC1.fallbackProvider = "" ∧
    gatewayChat cfgC1 behaviorAllFail "openai" =
      (.error (.allRetriesExhausted "openai" "boom"), 3) :=
  ⟨by decide, by decide, rfl, rfl,
   chat_failing_primary_no_fallback_three_attempts cfgC1 behaviorAllFail
     "openai" (fun _ => "boom") (by decide) (by decide) rfl rfl
     (fun _ => rfl)⟩

def cfgC2 : GatewayConfig :=
  { providers := ["a", "b"], defaultProvider := "a",
    fallbackProvider := "b", maxRetries := 2 }

def respB : ChatResponse :=
  { provider := "b", model := "m", content := "hi", totalTokens := 1 }

/-- A behaviour where the primary `"a"` permanently fails but the fallback
`"b"` succeeds on its first attempt. -/
def behaviorC2 : ProviderBehavior :=
  fun p _ => if p = "a" then .error "boom" else .ok respB

/-- C2 counterexample: with a distinct fallback configured and the primary
permanently failing, the fallback may succeed on its first attempt, so the
total number of backend attempts is 4, not `(1 + maxRetries) × 2 = 6`. -/
theorem chat_fallback_total_attempts_counterexample :
    cfgC2.fallbackProvider ≠ "" ∧ cfgC2.fallbackProvider ≠ "a" ∧
    (∀ n, behaviorC2 "a" n = .error "boom") ∧
    (gatewayChat cfgC2 behaviorC2 "a").2 = 4 ∧
    (1 + cfgC2.maxRetries) * 2 = 6 :=
  ⟨by decide, by decide, fun _ => rfl, rfl, rfl⟩

/-- C2 amended: when the primary and the fallback backend each fail on
every attempt, the fallback is run through its own full retry budget after
the primary's is exhausted: the total number of `ChatCompletion` attempts
is `(1 + maxRetries) × 2`, and the surfaced composite error wraps the
fallback's last cause. -/
theorem chat_fallback_full_budget_attempts
    (cfg : GatewayConfig) (behavior : ProviderBehavior) (pname : String)
    (e eF : Nat → String)
    (hp : pname ≠ "") (hmem : pname ∈ cfg.providers)
    (hfbmem : cfg.fallbackProvider ∈ cfg.providers)
    (hfbne : cfg.fallbackProvider ≠ "")
    (hfbdist : cfg.fallbackProvider ≠ pname)
    (hfail : ∀ n, behavior pname n = .error (e n))
    (hfailF : ∀ n, behavior cfg.fallbackProvider n = .error (eF n)) :
    gatewayChat cfg behavior pname =
      (.error (.allRetriesExhausted cfg.fallbackProvider (eF cfg.maxRetries)),
       (1 + cfg.maxRetries) * 2) := by
  have h1 := chatWithRetry_all_fail cfg behavior pname e hmem hfail
  have h2 := chatWithRetry_all_fail cfg behavior cfg.fallbackProvider eF hfbmem hfailF
  simp only [gatewayChat, if_neg hp, h1, h2]
  rw [if_pos ⟨hfbne, hfbdist⟩]
  have : cfg.maxRetries + 1 + (cfg.maxRetries + 1) = (1 + cfg.maxRetries) * 2 := by ring
  rw [this]

/-- A behaviour where both providers fail on every attempt. -/
def behaviorBothFail : ProviderBehavior := fun _ _ => .error "down"

/-- Witness for the amended C2 at a concrete configuration: 6 attempts. -/
theorem chat_fallback_full_budget_attempts_witness :
    ("a" : String) ≠ "" ∧ "a" ∈ cfgC2.providers ∧
    cfgC2.fallbackProvider ∈ cfgC2.providers ∧
    cfgC2.fallbackProvider ≠ "" ∧ cfgC2.fallbackProvider ≠ "a" ∧
    gatewayChat cfgC2 behaviorBothFail "a" =
      (.error (.allRetriesExhausted "b" "down"), 6) :=
  ⟨by decide, by decide, by decide, by decide, by decide,
   chat_fallback_full_budget_attempts cfgC2 behaviorBothFail "a"
     (fun _ => "down") (fun _ => "down") (by decide) (by decide) (by decide)
     (by decide) (by decide) (fun _ => rfl) (fun _ => rfl)⟩
/-- `vectorstore` `SearchResult`; UUIDs are modelled as strings and the
`Metadata` map (never read by the code under study) is omitted. -/
structure SearchResult where
  chunkID : String
  documentID : String
  content : String
  score : ℚ
  chunkIndex : Int
  deriving Repr, DecidableEq

/-- `internal/rag` `RetrieveOptions`. -/
structure RetrieveOptions where
  tenantID : String
  topK : Int
  minScore : ℚ
  hybrid : Bool
  deriving Repr, DecidableEq

/-- `vectorstore.SearchOptions`, built by `Retriever.Retrieve` from
`RetrieveOptions` (the hybrid flag is not part of it). -/
structure SearchOptions where
  tenantID : String
  topK : Int
  minScore : ℚ
  deriving Repr, DecidableEq

/-- `internal/rag` `Citation`. -/
structure Citation where
  documentID : String
  chunkID : String
  content : String
  score : ℚ
  deriving Repr, DecidableEq

/-- `truncate` (`internal/rag`): cut to `maxLen` and append an ellipsis;
Go measures bytes, modelled here as characters. -/
def truncate (s : String) (maxLen : Nat) : String :=
  if s.length ≤ maxLen then s else (s.take maxLen) ++ "..."

/-- One parsed entry of the reranker's expected JSON score array. -/
structure ScoreEntry where
  index : Int
  score : ℚ
  deriving Repr, DecidableEq

/-- `strings.TrimSpace`, implemented over the character list (kernel
evaluable); `Char.isWhitespace` covers the ASCII whitespace the code
under study encounters. -/
def trimChars (s : String) : String :=
  String.mk
    (((s.toList.dropWhile Char.isWhitespace).reverse.dropWhile
        Char.isWhitespace).reverse)

/-- Whether `pre` is a prefix of `s`, over the character lists. -/
def hasPre (s pre : String) : Bool := pre.toList.isPrefixOf s.toList

/-- Whether `suf` is a suffix of `s`, over the character lists. -/
def hasSuf (s suf : String) : Bool := suf.toList.isSuffixOf s.toList

/-- `strings.TrimPrefix`: drop `pre` when it is a prefix, else unchanged. -/
def stripLeading (s pre : String) : String :=
  if hasPre s pre then s.drop pre.length else s

/-- `strings.TrimSuffix`: drop `suf` when it is a suffix, else unchanged. -/
def stripTrailing (s suf : String) : String :=
  if hasSuf s suf then s.dropRight suf.length else s

/-- The markdown code-fence stripping the reranker applies to the model
output before JSON parsing: trim, drop a leading "```json" fence, then a
leading "```", then a trailing "```", trim again. -/
def stripFences (content : String) : String :=
  trimChars
    (stripTrailing (stripLeading (stripLeading (trimChars content) "```json")
      "```") "```")

/-- `strings.Split` on the newline separator, over character lists. -/
def splitOnChar (sep : Char) : List Char → List (List Char)
  | [] => [[]]
  | c :: cs =>
    match splitOnChar sep cs with
    | [] => [[]]
    | g :: gs => if c = sep then [] :: g :: gs else (c :: g) :: gs

/-- `strings.Split(s, "\n")`. -/
def splitNewlines (s : String) : List String :=
  (splitOnChar (Char.ofNat 10) s.toList).map String.mk

/-- Go builds `map[int]float64` from the parsed score entries; a duplicate
index overwrites, so lookup yields the last matching entry. -/
def scoreLookup (scores : List ScoreEntry) (i : Int) : Option ℚ :=
  ((scores.filter (fun s => s.index == i)).getLast?).map (fun s => s.score)

/-- Insertion into a descending-by-score list, one admissible execution of
Go's unstable `sort.Slice` with comparator `Score > Score`. -/
def insertDesc (r : SearchResult) : List SearchResult → List SearchResult
  | [] => [r]
  | x :: xs => if r.score > x.score then r :: x :: xs else x :: insertDesc r xs

/-- The final sort of `LLMReranker.Rerank`: descending by score. -/
def sortByScoreDesc (l : List SearchResult) : List SearchResult :=
  l.foldr insertDesc []

/-- `LLMReranker.Rerank`.  `chat` is the outcome of the one scoring call
(the prompt it is built from feeds only that call), `parse` the behaviour
of `encoding/json.Unmarshal` into the score-entry array (standard library,
abstracted).  The Go `(results, error)` multi-value return is kept as a
pair because `pipeline.Search` reads the value slot regardless of the
error slot.  Every Go return path of this function carries a `nil`
error. -/
def llmRerank (chat : Except String ChatResponse)
    (parse : String → Option (List ScoreEntry))
    (results : List SearchResult) : List SearchResult × Option String :=
  if results.isEmpty then (results, none)
  else
    match chat with
    | .error _ => (results, none)
    | .ok resp =>
      match parse (stripFences resp.content) with
      | none => (results, none)
      | some scores =>
        let reranked := results.mapIdx (fun i r =>
          match scoreLookup scores (Int.ofNat i) with
          | some s => { r with score := s }
          | none => r)
        (sortByScoreDesc reranked, none)

/-- `LLMQueryRewriter.Rewrite`: on chat failure degrade to `[query]`; on
success split the trimmed content into lines, trim each, keep those that
are non-empty and differ from the original, and always prepend the
original query.  The Go function never returns a non-nil error. -/
def rewriteQueries (chat : Except String ChatResponse) (query : String) :
    List String :=
  match chat with
  | .error _ => [query]
  | .ok resp =>
    let lines := splitNewlines (trimChars resp.content)
    query :: (lines.map trimChars).filter (fun l => l != "" && l != query)

/-- `HyDE.GenerateHypothetical`: one chat call; the trimmed content on
success, a wrapped error on failure. -/
def generateHypothetical (chat : Except String ChatResponse) :
    Except String String :=
  match chat with
  | .error e => .error ("generate hypothetical document: " ++ e)
  | .ok resp => .ok (trimChars resp.content)
/-- Errors of `embedding.Service`: `fmt.Errorf("embed batch %d: %w", ...)`
and `fmt.Errorf("no embedding returned")`. -/
inductive EmbedError where
  | batchErr (index : Nat) (cause : String)
  | noEmbeddingReturned
  deriving Repr, DecidableEq

/-- The string a Service error renders to (the `fmt.Errorf` formats). -/
def EmbedError.render : EmbedError → String
  | .batchErr i e => "embed batch " ++ toString i ++ ": " ++ e
  | .noEmbeddingReturned => "no embedding returned"

/-- The batching loop of `Service.Embed` (`for i := 0; i < len(texts); i
+= batchSize` with `batchSize = 100`): `gwEmbed` is the outcome of each
`gateway.Embed` call on a batch (the `Embeddings` field of its response),
`bidx` the current batch ordinal `i/batchSize`.  Returns the Go result
together with the list of batches actually sent (the call trace).  On a
batch failure the loop aborts: no partial results, later batches never
sent. -/
def embedLoopF (gwEmbed : List String → Except String (List (List ℚ))) :
    Nat → List String → Nat →
    Except EmbedError (List (List ℚ)) × List (List String)
  | _, [], _ => (.ok [], [])
  | 0, _ :: _, _ => (.ok [], [])
  | fuel + 1, t :: ts, bidx =>
    let batch := (t :: ts).take 100
    match gwEmbed batch with
    | .error e => (.error (.batchErr bidx e), [batch])
    | .ok embs =>
      let rest := embedLoopF gwEmbed fuel ((t :: ts).drop 100) (bidx + 1)
      ((rest.1).map (fun more => embs ++ more), batch :: rest.2)

/-- The loop with its fuel: each iteration drops `batchSize = 100 ≥ 1`
elements, so `texts.length` iterations suffice and the zero-fuel branch is
unreachable. -/
def embedLoop (gwEmbed : List String → Except String (List (List ℚ)))
    (ts : List String) (bidx : Nat) :
    Except EmbedError (List (List ℚ)) × List (List String) :=
  embedLoopF gwEmbed ts.length ts bidx

/-- `Service.Embed`: empty input short-circuits with no calls; otherwise
the batching loop starting at batch ordinal 0. -/
def serviceEmbed (gwEmbed : List String → Except String (List (List ℚ)))
    (texts : List String) :
    Except EmbedError (List (List ℚ)) × List (List String) :=
  if texts.isEmpty then (.ok [], []) else embedLoop gwEmbed texts 0

/-- `Service.EmbedSingle`: embed a one-element batch, fail if the result
is empty, else the first vector. -/
def embedSingle (gwEmbed : List String → Except String (List (List ℚ)))
    (text : String) : Except String (List ℚ) :=
  match (serviceEmbed gwEmbed [text]).1 with
  | .error e => .error e.render
  | .ok [] => .error "no embedding returned"
  | .ok (v :: _) => .ok v

/-- External behaviour the RAG pipeline runs against: the gateway's embed
operation and the two vector-store searches (external collaborators), and
the outcome of each of the four distinct chat calls the pipeline makes
(HyDE generation, query rewriting, rerank scoring, answer generation),
plus the behaviour of `encoding/json.Unmarshal` on the reranker's
response. -/
structure PipelineEnv where
  gwEmbed : List String → Except String (List (List ℚ))
  similaritySearch : List ℚ → SearchOptions → Except String (List SearchResult)
  hybridSearch : String → List ℚ → SearchOptions → Except String (List SearchResult)
  hydeChat : Except String ChatResponse
  rewriteChat : Except String ChatResponse
  rerankChat : Except String ChatResponse
  generateChat : Except String ChatResponse
  parseScores : String → Option (List ScoreEntry)

/-- `Retriever.Retrieve`: embed the query (wrapping a failure as
"embed query: ..."), then hybrid or plain similarity search. -/
def retrieverRetrieve (env : PipelineEnv) (query : String)
    (opts : RetrieveOptions) : Except String (List SearchResult) :=
  match embedSingle env.gwEmbed query with
  | .error e => .error ("embed query: " ++ e)
  | .ok queryVec =>
    let searchOpts : SearchOptions :=
      { tenantID := opts.tenantID, topK := opts.topK, minScore := opts.minScore }
    if opts.hybrid then env.hybridSearch query queryVec searchOpts
    else env.similaritySearch queryVec searchOpts

/-- The per-variant dedup step of `multiQueryRetrieve`: walk one variant's
results, appending those whose chunk id is unseen and recording the ids. -/
def dedupAppend : List SearchResult → List String → List SearchResult →
    List String × List SearchResult
  | [], seen, acc => (seen, acc)
  | r :: rs, seen, acc =>
    if r.chunkID ∈ seen then dedupAppend rs seen acc
    else dedupAppend rs (r.chunkID :: seen) (acc ++ [r])

/-- The variant loop of `multiQueryRetrieve`: a failing variant is skipped
(`continue`), a successful one contributes its unseen results in order. -/
def mqLoop (env : PipelineEnv) (opts : RetrieveOptions) :
    List String → List String → List SearchResult → List SearchResult
  | [], _, acc => acc
  | q :: qs, seen, acc =>
    match retrieverRetrieve env q opts with
    | .error _ => mqLoop env opts qs seen acc
    | .ok rs =>
      let sa := dedupAppend rs seen acc
      mqLoop env opts qs sa.1 sa.2

/-- `pipeline.multiQueryRetrieve`: merge the variants' results with
first-occurrence-wins dedup on chunk id, then cap to `TopK` (the Go slice
`allResults[:opts.TopK]` assumes `TopK ≥ 0`; both pipeline entry points
default it to a positive value).  Always returns a nil error. -/
def multiQueryRetrieve (env : PipelineEnv) (queries : List String)
    (opts : RetrieveOptions) : Except String (List SearchResult) :=
  let allResults := mqLoop env opts queries [] []
  .ok (if (allResults.length : Int) > opts.topK
       then allResults.take opts.topK.toNat else allResults)

/-- Which branch of `pipeline.retrieve` produced the final result. -/
inductive RetrievalPath where
  | hyde
  | multi
  | standard
  deriving Repr, DecidableEq

/-- `pipeline.retrieve`, instrumented with the branch that produced the
returned value: the HyDE branch is used when HyDE is requested, the
hypothetical-document generation succeeds with non-empty text, and
retrieval on it succeeds with non-empty results; otherwise the rewrite
branch when requested and the rewriter yields more than one variant
(`LLMQueryRewriter.Rewrite` never returns an error); otherwise standard
single-query retrieval. -/
def pipelineRetrieve (env : PipelineEnv) (query : String)
    (opts : RetrieveOptions) (rewrite useHyDE : Bool) :
    Except String (List SearchResult) × RetrievalPath :=
  let hydeStep : Option (List SearchResult) :=
    if useHyDE then
      match generateHypothetical env.hydeChat with
      | .ok hypoDoc =>
        if hypoDoc ≠ "" then
          match retrieverRetrieve env hypoDoc opts with
          | .ok results => if results ≠ [] then some results else none
          | .error _ => none
        else none
      | .error _ => none
    else none
  match hydeStep with
  | some results => (.ok results, .hyde)
  | none =>
    if rewrite then
      let queries := rewriteQueries env.rewriteChat query
      if queries.length > 1 then (multiQueryRetrieve env queries opts, .multi)
      else (retrieverRetrieve env query opts, .standard)
    else (retrieverRetrieve env query opts, .standard)
/-- `internal/rag` `GenerateRequest`. -/
structure GenerateRequest where
  query : String
  context : List SearchResult
  model : String
  provider : String
  deriving Repr, DecidableEq

/-- `internal/rag` `GenerateResponse`. -/
structure GenerateResponse where
  answer : String
  citations : List Citation
  usage : ChatResponse
  deriving Repr, DecidableEq

/-- The citation built from one context entry in `Generator.Generate`. -/
def mkCitation (c : SearchResult) : Citation :=
  { documentID := c.documentID, chunkID := c.chunkID,
    content := truncate c.content 200, score := c.score }

/-- `Generator.Generate`: issue one gateway chat call (`chat` is its
outcome; the grounding prompt it builds feeds only that call and nothing
else, so it is not modelled) and on success pair the answer with the
citation list derived positionally from the context.  Chat failure is
wrapped as "generate answer: ...". -/
def generate (chat : Except String ChatResponse) (req : GenerateRequest) :
    Except String GenerateResponse :=
  match chat with
  | .error e => .error ("generate answer: " ++ e)
  | .ok resp =>
    .ok { answer := resp.content,
          citations := req.context.map mkCitation,
          usage := resp }

/-- `internal/rag` `QueryRequest`. -/
structure QueryRequest where
  query : String
  topK : Int
  minScore : ℚ
  hybrid : Bool
  model : String
  provider : String
  rerank : Bool
  queryRewrite : Bool
  useHyDE : Bool
  deriving Repr, DecidableEq

/-- `internal/rag` `QueryResponse`. -/
structure QueryResponse where
  answer : String
  citations : List Citation
  model : String
  tokens : Nat
  deriving Repr, DecidableEq

/-- `internal/rag` `SearchRequest`. -/
structure SearchRequest where
  query : String
  topK : Int
  minScore : ℚ
  hybrid : Bool
  rerank : Bool
  queryRewrite : Bool
  useHyDE : Bool
  deriving Repr, DecidableEq

/-- Errors surfaced by `pipeline.Query` / `pipeline.Search`, tagged by the
`fmt.Errorf` wrapping site ("retrieve: %w", "rerank: %w", "generate: %w"). -/
inductive RagError where
  | retrieveErr (e : String)
  | rerankErr (e : String)
  | generateErr (e : String)
  deriving Repr, DecidableEq

/-- The `RetrieveOptions` `pipeline.Query` builds: `TopK` defaulted to 5
when non-positive, tenant id from the ambient context. -/
def queryOpts (tenantID : String) (req : QueryRequest) : RetrieveOptions :=
  { tenantID := tenantID, topK := if req.topK ≤ 0 then 5 else req.topK,
    minScore := req.minScore, hybrid := req.hybrid }

/-- The `RetrieveOptions` `pipeline.Search` builds: `TopK` defaulted to
10 when non-positive. -/
def searchOpts (tenantID : String) (req : SearchRequest) : RetrieveOptions :=
  { tenantID := tenantID, topK := if req.topK ≤ 0 then 10 else req.topK,
    minScore := req.minScore, hybrid := req.hybrid }

/-- The conditional rerank step of `pipeline.Query` / `pipeline.Search`
(`if req.Rerank && len(results) > 0`): the reranker's `(results, error)`
pair, or the untouched results with a nil error when reranking is off or
the result set empty. -/
def rerankStep (env : PipelineEnv) (rerank : Bool)
    (results : List SearchResult) : List SearchResult × Option String :=
  if rerank ∧ results ≠ [] then llmRerank env.rerankChat env.parseScores results
  else (results, none)

/-- `pipeline.Query`: retrieve (with rewriting/HyDE as requested), rerank
when requested on a non-empty result set (failing the call if the
reranker reported an error), then generate. -/
def pipelineQuery (env : PipelineEnv) (tenantID : String)
    (req : QueryRequest) : Except RagError QueryResponse :=
  match (pipelineRetrieve env req.query (queryOpts tenantID req)
          req.queryRewrite req.useHyDE).1 with
  | .error e => .error (.retrieveErr e)
  | .ok results =>
    match rerankStep env req.rerank results with
    | (_, some e) => .error (.rerankErr e)
    | (results2, none) =>
      match generate env.generateChat
              { query := req.query, context := results2,
                model := req.model, provider := req.provider } with
      | .error e => .error (.generateErr e)
      | .ok g =>
        .ok { answer := g.answer, citations := g.citations,
              model := g.usage.model, tokens := g.usage.totalTokens }

/-- `pipeline.Search`: retrieve (with rewriting/HyDE as requested), then
rerank when requested on a non-empty result set, discarding the
reranker's error slot (`results, _ = p.reranker.Rerank(...)`). -/
def pipelineSearch (env : PipelineEnv) (tenantID : String)
    (req : SearchRequest) : Except RagError (List SearchResult) :=
  match (pipelineRetrieve env req.query (searchOpts tenantID req)
          req.queryRewrite req.useHyDE).1 with
  | .error e => .error (.retrieveErr e)
  | .ok results => .ok (rerankStep env req.rerank results).1
/-- C6: when the reranker's chat call fails, or its output does not parse
as the expected score array, `Rerank` returns the candidate list exactly
as given — same order, same scores — with a nil error. -/
theorem rerank_failure_input_unchanged
    (chat : Except String ChatResponse)
    (parse : String → Option (List ScoreEntry))
    (results : List SearchResult) :
    (∀ e, chat = .error e → llmRerank chat parse results = (results, none)) ∧
    (∀ resp, chat = .ok resp → parse (stripFences resp.content) = none →
       llmRerank chat parse results = (results, none)) := by
  constructor
  · intro e he
    subst he
    unfold llmRerank
    split <;> rfl
  · intro resp hresp hparse
    subst hresp
    unfold llmRerank
    split
    · rfl
    · simp only [hparse]

def resultsC6 : List SearchResult :=
  [{ chunkID := "c1", documentID := "d1", content := "alpha",
     score := 9, chunkIndex := 0 },
   { chunkID := "c2", documentID := "d2", content := "beta",
     score := 3, chunkIndex := 1 }]

/-- A parse behaviour that always fails (malformed model output). -/
def parseNone : String → Option (List ScoreEntry) := fun _ => none

/-- Witness for C6: a failing chat call and a malformed (unparseable)
response each leave the two-element candidate list untouched. -/
theorem rerank_failure_input_unchanged_witness :
    llmRerank (.error "boom") parseNone resultsC6 = (resultsC6, none) ∧
    llmRerank (.ok respB) parseNone resultsC6 = (resultsC6, none) :=
  ⟨(rerank_failure_input_unchanged (.error "boom") parseNone resultsC6).1
     "boom" rfl,
   (rerank_failure_input_unchanged (.ok respB) parseNone resultsC6).2
     respB rfl rfl⟩

/-- C5: a successful `Generate` returns one citation per context entry,
positionally aligned: document id, chunk id and score are copied from the
context entry at the same index, and the content is its 200-character
truncated preview. -/
theorem generate_citations_positionally_aligned
    (chat : Except String ChatResponse) (req : GenerateRequest)
    (resp : GenerateResponse) (h : generate chat req = .ok resp) :
    resp.citations.length = req.context.length ∧
    ∀ i (hi : i < resp.citations.length) (hc : i < req.context.length),
      (resp.citations.get ⟨i, hi⟩).documentID =
        (req.context.get ⟨i, hc⟩).documentID ∧
      (resp.citations.get ⟨i, hi⟩).chunkID =
        (req.context.get ⟨i, hc⟩).chunkID ∧
      (resp.citations.get ⟨i, hi⟩).score = (req.context.get ⟨i, hc⟩).score ∧
      (resp.citations.get ⟨i, hi⟩).content =
        truncate ((req.context.get ⟨i, hc⟩).content) 200 := by
  cases chat with
  | error e => exact absurd h (by simp [generate])
  | ok r =>
    simp only [generate] at h
    injection h with h2
    subst h2
    refine ⟨by simp, ?_⟩
    intro i hi hc
    simp [List.get_eq_getElem, List.getElem_map, mkCitation]

def ctxC5 : List SearchResult :=
  [{ chunkID := "c1", documentID := "d1", content := "first chunk",
     score := 7, chunkIndex := 0 },
   { chunkID := "c2", documentID := "d2", content := "second chunk",
     score := 6, chunkIndex := 1 }]

def reqC5 : GenerateRequest :=
  { query := "q", context := ctxC5, model := "m", provider := "" }

def respC5 : GenerateResponse :=
  { answer := respB.content, citations := ctxC5.map mkCitation, usage := respB }

/-- Witness for C5 on a successful generation over a two-chunk context. -/
theorem generate_citations_positionally_aligned_witness :
    respC5.citations.length = reqC5.context.length ∧
    ∀ i (hi : i < respC5.citations.length) (hc : i < reqC5.context.length),
      (respC5.citations.get ⟨i, hi⟩).documentID =
        (reqC5.context.get ⟨i, hc⟩).documentID ∧
      (respC5.citations.get ⟨i, hi⟩).chunkID =
        (reqC5.context.get ⟨i, hc⟩).chunkID ∧
      (respC5.citations.get ⟨i, hi⟩).score = (reqC5.context.get ⟨i, hc⟩).score ∧
      (respC5.citations.get ⟨i, hi⟩).content =
        truncate ((reqC5.context.get ⟨i, hc⟩).content) 200 :=
  generate_citations_positionally_aligned (.ok respB) reqC5 respC5 rfl
/-- Every return path of `LLMReranker.Rerank` carries a nil error. -/
theorem llmRerank_never_errors (chat : Except String ChatResponse)
    (parse : String → Option (List ScoreEntry))
    (results : List SearchResult) :
    (llmRerank chat parse results).2 = none := by
  unfold llmRerank
  split
  · rfl
  · split
    · rfl
    · split
      · rfl
      · rfl

/-- The conditional rerank step never reports an error, whatever the
reranker's chat and parse behaviour. -/
theorem rerankStep_no_error (env : PipelineEnv) (b : Bool)
    (results : List SearchResult) : (rerankStep env b results).2 = none := by
  unfold rerankStep
  split
  · exact llmRerank_never_errors _ _ _
  · rfl

/-- C3: `pipeline.Query` and `pipeline.Search` return an error only from
the mandatory steps — the error, when present, is the wrapped retrieval
error or (for `Query`) the wrapped generation error; never a rerank error,
and failures of the optional enhancements (HyDE, rewriting, reranking) are
absorbed by the fallback paths. -/
theorem query_search_error_only_from_mandatory_steps
    (env : PipelineEnv) (tenantID : String)
    (qreq : QueryRequest) (sreq : SearchRequest) :
    (∀ err, pipelineQuery env tenantID qreq = .error err →
       (∃ e, err = .retrieveErr e) ∨ ∃ e, err = .generateErr e) ∧
    (∀ err, pipelineSearch env tenantID sreq = .error err →
       ∃ e, err = .retrieveErr e) := by
  constructor
  · intro err h
    unfold pipelineQuery at h
    split at h
    · left
      injection h with h2
      exact ⟨_, h2.symm⟩
    · rename_i results0 hretr
      split at h
      · rename_i pr a e heq
        have hnone := rerankStep_no_error env qreq.rerank results0
        rw [heq] at hnone
        exact absurd hnone (by simp)
      · split at h
        · right
          injection h with h2
          exact ⟨_, h2.symm⟩
        · exact Except.noConfusion h
  · intro err h
    unfold pipelineSearch at h
    split at h
    · injection h with h2
      exact ⟨_, h2.symm⟩
    · exact Except.noConfusion h
/-- An environment whose gateway embedding call always fails, so the
mandatory retrieval step fails for every query. -/
def envC3 : PipelineEnv :=
  { gwEmbed := fun _ => .error "down",
    similaritySearch := fun _ _ => .ok [],
    hybridSearch := fun _ _ _ => .ok [],
    hydeChat := .error "nohyde",
    rewriteChat := .error "norewrite",
    rerankChat := .error "norerank",
    generateChat := .error "nogen",
    parseScores := fun _ => none }

def qreqC3 : QueryRequest :=
  { query := "q", topK := 0, minScore := 0, hybrid := false, model := "",
    provider := "", rerank := true, queryRewrite := false, useHyDE := false }

def sreqC3 : SearchRequest :=
  { query := "q", topK := 0, minScore := 0, hybrid := false,
    rerank := true, queryRewrite := false, useHyDE := false }

/-- Witness for C3: in `envC3` both calls fail, and the theorem places
the error at the mandatory retrieval step. -/
theorem query_search_error_only_from_mandatory_steps_witness :
    ((∃ e, RagError.retrieveErr "embed query: embed batch 0: down" =
        .retrieveErr e) ∨
      ∃ e, RagError.retrieveErr "embed query: embed batch 0: down" =
        .generateErr e) ∧
    (∃ e, RagError.retrieveErr "embed query: embed batch 0: down" =
      .retrieveErr e) :=
  ⟨(query_search_error_only_from_mandatory_steps envC3 "t" qreqC3 sreqC3).1
     (.retrieveErr "embed query: embed batch 0: down") rfl,
   (query_search_error_only_from_mandatory_steps envC3 "t" qreqC3 sreqC3).2
     (.retrieveErr "embed query: embed batch 0: down") rfl⟩
/-- Modelled from the spec's words (refinement side of C4): walk the
concatenated results keeping only the first occurrence of each chunk id;
`seen` holds the ids already kept. -/
def specDedupFirst : List SearchResult → List String → List SearchResult
  | [], _ => []
  | r :: rs, seen =>
    if r.chunkID ∈ seen then specDedupFirst rs seen
    else r :: specDedupFirst rs (r.chunkID :: seen)

/-- The set of chunk ids seen after walking `rs` starting from `seen`. -/
def seenAfter : List SearchResult → List String → List String
  | [], seen => seen
  | r :: rs, seen =>
    if r.chunkID ∈ seen then seenAfter rs seen
    else seenAfter rs (r.chunkID :: seen)

/-- Modelled from the spec's words (C4): concatenate the per-variant
result lists in variant order, deduplicate by chunk id with the first
occurrence winning, and truncate to `topK`. -/
def specMultiQueryMerge (perVariant : List (List SearchResult))
    (topK : Nat) : List SearchResult :=
  (specDedupFirst perVariant.flatten []).take topK

theorem dedupAppend_spec (rs : List SearchResult) :
    ∀ seen acc, dedupAppend rs seen acc =
      (seenAfter rs seen, acc ++ specDedupFirst rs seen) := by
  induction rs with
  | nil => intro seen acc; simp [dedupAppend, seenAfter, specDedupFirst]
  | cons r rs ih =>
    intro seen acc
    by_cases hmem : r.chunkID ∈ seen
    · simp only [dedupAppend, seenAfter, specDedupFirst, if_pos hmem]
      exact ih seen acc
    · simp only [dedupAppend, seenAfter, specDedupFirst, if_neg hmem]
      rw [ih (r.chunkID :: seen) (acc ++ [r])]
      simp

theorem specDedupFirst_append (rs : List SearchResult) :
    ∀ rest seen, specDedupFirst (rs ++ rest) seen =
      specDedupFirst rs seen ++ specDedupFirst rest (seenAfter rs seen) := by
  induction rs with
  | nil => intro rest seen; simp [specDedupFirst, seenAfter]
  | cons r rs ih =>
    intro rest seen
    by_cases hmem : r.chunkID ∈ seen
    · simp only [List.cons_append, specDedupFirst, seenAfter, if_pos hmem]
      exact ih rest seen
    · simp only [List.cons_append, specDedupFirst, seenAfter, if_neg hmem,
        List.append_eq]
      rw [ih rest (r.chunkID :: seen)]

theorem mqLoop_all_success (env : PipelineEnv) (opts : RetrieveOptions)
    (res : String → List SearchResult) :
    ∀ (qs : List String), (∀ q ∈ qs, retrieverRetrieve env q opts = .ok (res q)) →
      ∀ seen acc, mqLoop env opts qs seen acc =
        acc ++ specDedupFirst ((qs.map res).flatten) seen := by
  intro qs
  induction qs with
  | nil => intro _ seen acc; simp [mqLoop, specDedupFirst]
  | cons q qs ih =>
    intro hsucc seen acc
    have hq : retrieverRetrieve env q opts = .ok (res q) :=
      hsucc q (List.mem_cons_self q qs)
    simp only [mqLoop, hq, dedupAppend_spec]
    rw [ih (fun p hp => hsucc p (List.mem_cons_of_mem q hp))
          (seenAfter (res q) seen) (acc ++ specDedupFirst (res q) seen)]
    simp only [List.map_cons, List.flatten_cons, specDedupFirst_append,
      List.append_assoc]
def rA : SearchResult :=
  { chunkID := "A", documentID := "dA", content := "a", score := 5,
    chunkIndex := 0 }

def rB : SearchResult :=
  { chunkID := "B", documentID := "dB", content := "b", score := 4,
    chunkIndex := 1 }

def rC : SearchResult :=
  { chunkID := "C", documentID := "dC", content := "c", score := 3,
    chunkIndex := 2 }

def rD : SearchResult :=
  { chunkID := "D", documentID := "dD", content := "d", score := 2,
    chunkIndex := 3 }

def rE : SearchResult :=
  { chunkID := "E", documentID := "dE", content := "e", score := 1,
    chunkIndex := 4 }

/-- The per-variant result sets of the C4 instance: {A,B,C}, {B,C,D},
{D,E}. -/
def resC4 : String → List SearchResult := fun q =>
  if q = "q1" then [rA, rB, rC]
  else if q = "q2" then [rB, rC, rD]
  else [rD, rE]

/-- A query-dependent embedding so the three variants hit three different
stored result sets. -/
def qvecC4 (t : String) : List ℚ :=
  if t = "q1" then [1] else if t = "q2" then [2] else [3]

def envC4 : PipelineEnv :=
  { gwEmbed := fun batch => .ok (batch.map qvecC4),
    similaritySearch := fun v _ =>
      if v = [1] then .ok [rA, rB, rC]
      else if v = [2] then .ok [rB, rC, rD]
      else .ok [rD, rE],
    hybridSearch := fun _ _ _ => .ok [],
    hydeChat := .error "x",
    rewriteChat := .error "x",
    rerankChat := .error "x",
    generateChat := .error "x",
    parseScores := fun _ => none }

def optsC4 : RetrieveOptions :=
  { tenantID := "t", topK := 5, minScore := 0, hybrid := false }

/-- C4: when every variant's retrieval succeeds, `multiQueryRetrieve`
merges the per-variant result lists by concatenating them in variant
order, deduplicating on chunk id with the first occurrence winning (so
first-seen order is preserved), and truncating to `TopK`; and on the
concrete instance with variants producing {A,B,C}, {B,C,D}, {D,E} and
`topK = 5` the merged sequence is exactly [A, B, C, D, E]. -/
theorem multiQuery_merge_first_seen_dedup
    (env : PipelineEnv) (opts : RetrieveOptions) (qs : List String)
    (res : String → List SearchResult)
    (htopk : 0 ≤ opts.topK)
    (hsucc : ∀ q ∈ qs, retrieverRetrieve env q opts = .ok (res q)) :
    multiQueryRetrieve env qs opts =
      .ok (specMultiQueryMerge (qs.map res) opts.topK.toNat) ∧
    multiQueryRetrieve envC4 ["q1", "q2", "q3"] optsC4 =
      .ok [rA, rB, rC, rD, rE] := by
  constructor
  · unfold multiQueryRetrieve specMultiQueryMerge
    rw [mqLoop_all_success env opts res qs hsucc [] []]
    simp only [List.nil_append]
    split
    · rfl
    · rename_i hlen
      rw [List.take_of_length_le]
      omega
  · rfl

/-- Witness for C4 at the concrete three-variant instance. -/
theorem multiQuery_merge_first_seen_dedup_witness :
    multiQueryRetrieve envC4 ["q1", "q2", "q3"] optsC4 =
      .ok (specMultiQueryMerge (["q1", "q2", "q3"].map resC4)
            optsC4.topK.toNat) ∧
    specMultiQueryMerge (["q1", "q2", "q3"].map resC4) optsC4.topK.toNat =
      [rA, rB, rC, rD, rE] :=
  ⟨(multiQuery_merge_first_seen_dedup envC4 optsC4 ["q1", "q2", "q3"] resC4
      (by decide) (by intro q hq; fin_cases hq <;> rfl)).1, rfl⟩
/-- `envC4` with HyDE failing and the rewriter producing the variants
"q2", "q3" (the original "q1" is always prepended). -/
def envC9 : PipelineEnv :=
  { envC4 with
    hydeChat := .error "hyde down",
    rewriteChat := .ok { provider := "openai", model := "gpt-4o-mini",
                         content := "q2\nq3", totalTokens := 5 } }

/-- C9 counterexample: with both HyDE and rewriting requested and the
HyDE generation call failing, `pipeline.retrieve` falls back to
multi-query retrieval — not to standard single-query retrieval, whose
result differs. -/
theorem hyde_failure_fallback_counterexample :
    envC9.hydeChat = .error "hyde down" ∧
    (pipelineRetrieve envC9 "q1" optsC4 true true).2 = .multi ∧
    (pipelineRetrieve envC9 "q1" optsC4 true true).1 =
      .ok [rA, rB, rC, rD, rE] ∧
    retrieverRetrieve envC9 "q1" optsC4 = .ok [rA, rB, rC] ∧
    (pipelineRetrieve envC9 "q1" optsC4 true true).1 ≠
      retrieverRetrieve envC9 "q1" optsC4 := by
  refine ⟨rfl, rfl, rfl, rfl, ?_⟩
  intro h
  have h2 : (Except.ok [rA, rB, rC, rD, rE] :
      Except String (List SearchResult)) = .ok [rA, rB, rC] := h
  injection h2 with h3
  exact absurd h3 (by decide)

/-- C9 amended: with both strategies requested HyDE takes precedence —
if hypothetical-document generation yields non-empty text and retrieval
on it succeeds with non-empty results, those results are returned and the
rewrite branch never runs; when the HyDE generation call fails the
pipeline falls back to multi-query retrieval if rewriting is requested
and yields more than one variant, and otherwise to standard single-query
retrieval. -/
theorem hyde_precedence_and_fallback
    (env : PipelineEnv) (query : String) (opts : RetrieveOptions)
    (rewrite : Bool) :
    (∀ d rs, generateHypothetical env.hydeChat = .ok d → d ≠ "" →
      retrieverRetrieve env d opts = .ok rs → rs ≠ [] →
      pipelineRetrieve env query opts rewrite true = (.ok rs, .hyde)) ∧
    (∀ e, generateHypothetical env.hydeChat = .error e →
      pipelineRetrieve env query opts rewrite true =
        (if rewrite = true ∧ (rewriteQueries env.rewriteChat query).length > 1
         then (multiQueryRetrieve env (rewriteQueries env.rewriteChat query)
                 opts, .multi)
         else (retrieverRetrieve env query opts, .standard))) := by
  constructor
  · intro d rs hd hdne hr hrne
    simp [pipelineRetrieve, hd, hr, hdne, hrne]
  · intro e he
    by_cases hrw : rewrite = true
    · by_cases hlen : (rewriteQueries env.rewriteChat query).length > 1
      · simp [pipelineRetrieve, he, hrw, hlen]
      · simp [pipelineRetrieve, he, hrw, hlen]
    · simp [pipelineRetrieve, he, hrw]
/-- `envC4` with HyDE succeeding: the hypothetical document "hdoc" maps
to the third stored result set. -/
def envC9b : PipelineEnv :=
  { envC4 with
    hydeChat := .ok { provider := "openai", model := "gpt-4o-mini",
                      content := "hdoc", totalTokens := 5 } }

/-- Witness for the amended C9: HyDE precedence in an environment where
HyDE succeeds, multi-query fallback in one where its generation fails. -/
theorem hyde_precedence_and_fallback_witness :
    pipelineRetrieve envC9b "q1" optsC4 true true = (.ok [rD, rE], .hyde) ∧
    pipelineRetrieve envC9 "q1" optsC4 true true =
      (if true = true ∧ (rewriteQueries envC9.rewriteChat "q1").length > 1
       then (multiQueryRetrieve envC9 (rewriteQueries envC9.rewriteChat "q1")
               optsC4, .multi)
       else (retrieverRetrieve envC9 "q1" optsC4, .standard)) :=
  ⟨(hyde_precedence_and_fallback envC9b "q1" optsC4 true).1 "hdoc" [rD, rE]
     rfl (by decide) rfl (by decide),
   (hyde_precedence_and_fallback envC9 "q1" optsC4 true).2
     "generate hypothetical document: hyde down" rfl⟩

/-- When every variant's retrieval fails, the loop of
`multiQueryRetrieve` accumulates nothing: each variant is skipped. -/
theorem mqLoop_all_fail (env : PipelineEnv) (opts : RetrieveOptions)
    (fe : String → String)
    (hfail : ∀ q, retrieverRetrieve env q opts = .error (fe q)) :
    ∀ qs seen acc, mqLoop env opts qs seen acc = acc := by
  intro qs
  induction qs with
  | nil => intro seen acc; rfl
  | cons q qs ih =>
    intro seen acc
    simp only [mqLoop, hfail q]
    exact ih seen acc

/-- C10: `multiQueryRetrieve` never returns an error for any variant list
and options; when every variant's retrieval fails the merged result is the
empty list with a nil error; and a rewrite-enabled `Query` whose every
variant retrieval fails proceeds to generation over an empty context
(returning the generated answer with an empty citation list) instead of
surfacing the retrieval failure. -/
theorem multiQuery_swallows_retrieval_failures
    (env : PipelineEnv) (opts : RetrieveOptions) (qs : List String)
    (fe : String → String) (tenantID : String) (req : QueryRequest)
    (resp : ChatResponse)
    (hfail : ∀ q, retrieverRetrieve env q opts = .error (fe q))
    (hfailq : ∀ q, retrieverRetrieve env q (queryOpts tenantID req) =
      .error (fe q))
    (hhyde : req.useHyDE = false) (hrw : req.queryRewrite = true)
    (hvars : (rewriteQueries env.rewriteChat req.query).length > 1)
    (hgen : env.generateChat = .ok resp) :
    (∀ qs2, ∃ rs, multiQueryRetrieve env qs2 opts = .ok rs) ∧
    multiQueryRetrieve env qs opts = .ok [] ∧
    pipelineQuery env tenantID req =
      .ok { answer := resp.content, citations := [], model := resp.model,
            tokens := resp.totalTokens } := by
  refine ⟨fun qs2 => ⟨_, rfl⟩, ?_, ?_⟩
  · unfold multiQueryRetrieve
    rw [mqLoop_all_fail env opts fe hfail qs [] []]
    simp
  · have hmq : multiQueryRetrieve env
        (rewriteQueries env.rewriteChat req.query) (queryOpts tenantID req) =
        .ok [] := by
      unfold multiQueryRetrieve
      rw [mqLoop_all_fail env (queryOpts tenantID req) fe hfailq _ [] []]
      simp
    have hret : (pipelineRetrieve env req.query (queryOpts tenantID req)
        req.queryRewrite req.useHyDE).1 = .ok [] := by
      rw [hhyde, hrw]
      simp [pipelineRetrieve, hvars, hmq]
    simp only [pipelineQuery, hret]
    simp [rerankStep, generate, hgen]
/-- An environment where every embedding call fails (so every variant's
retrieval fails) but the rewriter produces variants and generation
succeeds. -/
def envC10 : PipelineEnv :=
  { gwEmbed := fun _ => .error "down",
    similaritySearch := fun _ _ => .ok [],
    hybridSearch := fun _ _ _ => .ok [],
    hydeChat := .error "x",
    rewriteChat := .ok { provider := "openai", model := "gpt-4o-mini",
                         content := "q2\nq3", totalTokens := 5 },
    rerankChat := .error "x",
    generateChat := .ok respB,
    parseScores := fun _ => none }

def reqC10 : QueryRequest :=
  { query := "q1", topK := 0, minScore := 0, hybrid := false, model := "",
    provider := "", rerank := false, queryRewrite := true, useHyDE := false }

/-- Witness for C10: all variant retrievals fail, yet `Query` returns the
generated answer over an empty context with no error. -/
theorem multiQuery_swallows_retrieval_failures_witness :
    (∀ qs2, ∃ rs, multiQueryRetrieve envC10 qs2 optsC4 = .ok rs) ∧
    multiQueryRetrieve envC10 ["q1", "q2"] optsC4 = .ok [] ∧
    pipelineQuery envC10 "t" reqC10 =
      .ok { answer := respB.content, citations := [], model := respB.model,
            tokens := respB.totalTokens } :=
  multiQuery_swallows_retrieval_failures envC10 optsC4 ["q1", "q2"]
    (fun _ => "embed query: embed batch 0: down") "t" reqC10 respB
    (fun _ => rfl) (fun _ => rfl) rfl rfl (by decide) rfl
/-- The batch division `Service.Embed` performs: successive groups of 100
in input order (same fuel pattern as the loop). -/
def embedBatches : Nat → List String → List (List String)
  | _, [] => []
  | 0, _ :: _ => []
  | fuel + 1, t :: ts =>
    (t :: ts).take 100 :: embedBatches fuel ((t :: ts).drop 100)

/-- With every gateway embedding call succeeding elementwise (each text
`t` embeds to `f t`), the loop returns the concatenation in input order
and its call trace is exactly the batch division. -/
theorem embedLoopF_success (f : String → List ℚ) :
    ∀ n ts bidx, ts.length ≤ n →
      embedLoopF (fun b => .ok (b.map f)) n ts bidx =
        (.ok (ts.map f), embedBatches n ts) := by
  intro n
  induction n with
  | zero =>
    intro ts bidx h
    have hnil : ts = [] := List.length_eq_zero.mp (Nat.le_zero.mp h)
    subst hnil
    rfl
  | succ m ih =>
    intro ts bidx h
    cases ts with
    | nil => rfl
    | cons t ts' =>
      simp only [embedLoopF, embedBatches]
      simp only [List.length_cons] at h
      rw [ih ((t :: ts').drop 100) (bidx + 1)
            (by simp only [List.length_drop, List.length_cons]; omega)]
      simp only [Except.map]
      rw [← List.map_append, List.take_append_drop]

theorem embedBatches_cons (fuel : Nat) (ts : List String) (hne : ts ≠ []) :
    embedBatches (fuel + 1) ts =
      ts.take 100 :: embedBatches fuel (ts.drop 100) := by
  cases ts with
  | nil => exact absurd rfl hne
  | cons t ts' => rfl

theorem embedBatches_nil (fuel : Nat) : embedBatches fuel [] = [] := by
  cases fuel <;> rfl

/-- A 250-element input divides into exactly three batches of sizes
100, 100, 50. -/
theorem embedBatches_250 (ts : List String) (h : ts.length = 250) :
    (embedBatches 250 ts).map List.length = [100, 100, 50] := by
  rw [embedBatches_cons 249 ts (by intro hn; rw [hn] at h; simp at h)]
  rw [embedBatches_cons 248 (ts.drop 100)
        (by intro hn; have := congrArg List.length hn; simp [h] at this)]
  rw [embedBatches_cons 247 ((ts.drop 100).drop 100)
        (by intro hn; have := congrArg List.length hn; simp [h] at this)]
  rw [show (((ts.drop 100).drop 100).drop 100) = ts.drop 300 by
        simp [List.drop_drop]]
  rw [show ts.drop 300 = [] from List.drop_eq_nil_of_le (by omega)]
  rw [embedBatches_nil]
  simp [List.length_take, List.length_drop, h]

/-- When the loop reports an error it is a batch error naming the ordinal
of the last issued call, whose batch the oracle rejected; nothing beyond
that batch was sent and no embeddings are returned. -/
theorem embedLoopF_error (oracle : List String → Except String (List (List ℚ))) :
    ∀ n ts bidx err, (embedLoopF oracle n ts bidx).1 = .error err →
      ∃ i e, err = .batchErr i e ∧
        i + 1 = bidx + (embedLoopF oracle n ts bidx).2.length ∧
        ∃ b, (embedLoopF oracle n ts bidx).2.getLast? = some b ∧
          oracle b = .error e := by
  intro n
  induction n with
  | zero =>
    intro ts bidx err h
    cases ts <;> simp [embedLoopF] at h
  | succ m ih =>
    intro ts bidx err h
    cases ts with
    | nil => simp [embedLoopF] at h
    | cons t ts' =>
      cases ho : oracle ((t :: ts').take 100) with
      | error e =>
        simp only [embedLoopF, ho] at h ⊢
        injection h with h2
        exact ⟨bidx, e, h2.symm, by simp, _, rfl, ho⟩
      | ok embs =>
        simp only [embedLoopF, ho] at h ⊢
        cases hrest : (embedLoopF oracle m ((t :: ts').drop 100) (bidx + 1)).1 with
        | ok v => rw [hrest] at h; exact Except.noConfusion h
        | error err' =>
          rw [hrest] at h
          injection h with h2
          subst h2
          obtain ⟨i, e, herr, hlen, b, hlast, hob⟩ :=
            ih ((t :: ts').drop 100) (bidx + 1) err' hrest
          refine ⟨i, e, herr, ?_, b, ?_, hob⟩
          · simp only [List.length_cons]
            omega
          · cases hrt : (embedLoopF oracle m ((t :: ts').drop 100) (bidx + 1)).2 with
            | nil => rw [hrt] at hlast; exact Option.noConfusion hlast
            | cons x xs =>
              rw [hrt] at hlast
              rw [List.getLast?_cons_cons]
              exact hlast
/-- C7: a 250-text `Service.Embed` call issues exactly 3 gateway embedding
calls, on batches of sizes 100, 100, 50, and the concatenated output
preserves input order 1:1 (elementwise embedding `f` yields `texts.map
f`); and for any oracle, a failing batch call aborts the whole call with a
batch error carrying the ordinal of the failing (last issued) batch and no
partial results. -/
theorem embed_250_batches_of_100
    (f : String → List ℚ) (texts : List String)
    (oracle : List String → Except String (List (List ℚ)))
    (hlen : texts.length = 250) :
    (serviceEmbed (fun b => .ok (b.map f)) texts).1 = .ok (texts.map f) ∧
    ((serviceEmbed (fun b => .ok (b.map f)) texts).2).map List.length =
      [100, 100, 50] ∧
    (∀ err, (serviceEmbed oracle texts).1 = .error err →
      ∃ i e, err = .batchErr i e ∧
        i + 1 = (serviceEmbed oracle texts).2.length ∧
        ∃ b, (serviceEmbed oracle texts).2.getLast? = some b ∧
          oracle b = .error e) := by
  have hne : texts.isEmpty = false := by
    cases texts
    · simp at hlen
    · rfl
  have hserv : serviceEmbed (fun b => .ok (b.map f)) texts =
      (.ok (texts.map f), embedBatches texts.length texts) := by
    simp only [serviceEmbed, embedLoop, hne, Bool.false_eq_true, if_false]
    exact embedLoopF_success f texts.length texts 0 (le_refl _)
  refine ⟨?_, ?_, ?_⟩
  · rw [hserv]
  · rw [hserv]
    show (embedBatches texts.length texts).map List.length = _
    rw [hlen]
    exact embedBatches_250 texts hlen
  · have hserv2 : serviceEmbed oracle texts =
        embedLoopF oracle texts.length texts 0 := by
      simp only [serviceEmbed, embedLoop, hne, Bool.false_eq_true, if_false]
    intro err h
    rw [hserv2] at h ⊢
    obtain ⟨i, e, herr, hlen2, b, hlast, hob⟩ :=
      embedLoopF_error oracle texts.length texts 0 err h
    exact ⟨i, e, herr, by omega, b, hlast, hob⟩

def textsC7 : List String := List.replicate 250 "x"

def fC7 : String → List ℚ := fun _ => [1]

def oracleC7 : List String → Except String (List (List ℚ)) :=
  fun _ => .error "down"

/-- Witness for C7 on a concrete 250-text batch. -/
theorem embed_250_batches_of_100_witness :
    (serviceEmbed (fun b => .ok (b.map fC7)) textsC7).1 =
      .ok (textsC7.map fC7) ∧
    ((serviceEmbed (fun b => .ok (b.map fC7)) textsC7).2).map List.length =
      [100, 100, 50] ∧
    (∀ err, (serviceEmbed oracleC7 textsC7).1 = .error err →
      ∃ i e, err = .batchErr i e ∧
        i + 1 = (serviceEmbed oracleC7 textsC7).2.length ∧
        ∃ b, (serviceEmbed oracleC7 textsC7).2.getLast? = some b ∧
          oracleC7 b = .error e) :=
  embed_250_batches_of_100 fC7 textsC7 oracleC7 (by rfl)
/-- `pkg/chunker` `ChunkOptions`. -/
structure ChunkOptions where
  chunkSize : Int
  chunkOverlap : Int
  strategy : String
  deriving Repr, DecidableEq

/-- `pkg/chunker` `TextChunk` over rune lists.  The `Start`/`End` offsets
(unused by every property below, and left zero by the sentence strategy)
are omitted. -/
structure TextChunk where
  content : List Char
  index : Nat
  deriving Repr, DecidableEq

/-- `strings.TrimSpace` over a rune list. -/
def trimList (l : List Char) : List Char :=
  ((l.dropWhile Char.isWhitespace).reverse.dropWhile Char.isWhitespace).reverse

/-- The `chunkFixed` window loop, fuel-structural: the start offset
advances by `step ≥ 1` per iteration (the dispatcher guarantees
`size ≥ 1`), so `runes.length` iterations suffice. -/
def chunkFixedF (runes : List Char) (size step : Nat) :
    Nat → Nat → Nat → List TextChunk
  | 0, _, _ => []
  | fuel + 1, start, idx =>
    if start < runes.length then
      if (trimList ((runes.drop start).take size)).isEmpty then
        chunkFixedF runes size step fuel (start + step) idx
      else
        { content := (runes.drop start).take size, index := idx } ::
          chunkFixedF runes size step fuel (start + step) (idx + 1)
    else []

/-- `chunkFixed`: hard windows of `size` runes advancing by
`size - overlap`, degraded to `size` when the overlap is not smaller;
whitespace-only windows are dropped. -/
def chunkFixed (runes : List Char) (size overlap : Nat) : List TextChunk :=
  let step := if overlap < size then size - overlap else size
  chunkFixedF runes size step runes.length 0 0

/-- `strings.Split` on a non-empty separator sequence, fuel-structural
(each iteration consumes at least one rune). -/
def splitSeqF (sep : List Char) : Nat → List Char → List Char →
    List (List Char)
  | 0, rest, acc => [acc ++ rest]
  | _ + 1, [], acc => [acc]
  | fuel + 1, c :: cs, acc =>
    if sep.isPrefixOf (c :: cs) then
      acc :: splitSeqF sep fuel ((c :: cs).drop sep.length) []
    else
      splitSeqF sep fuel cs (acc ++ [c])

def splitSeq (sep text : List Char) : List (List Char) :=
  splitSeqF sep text.length text []

/-- The separator-free fallback of `splitRecursive`: hard windows of
`size` runes (the dispatcher guarantees `size ≥ 1`, so `text.length`
iterations suffice). -/
def fixedSplit (size : Nat) : Nat → List Char → List (List Char)
  | 0, _ => []
  | _ + 1, [] => []
  | fuel + 1, c :: cs =>
    (c :: cs).take size :: fixedSplit size fuel ((c :: cs).drop size)

/-- The regrouping loop of `splitRecursive`: flush the accumulated group
through the next separator level (`recur`) whenever appending the next
part would exceed `size`. -/
def splitJoinLoop (recur : List Char → List (List Char)) (sep : List Char)
    (size : Nat) : List (List Char) → List Char → List (List Char)
  | [], current =>
    if current.isEmpty then [] else recur current
  | part :: parts, current =>
    if current.isEmpty = false ∧ (current ++ sep ++ part).length > size then
      recur current ++ splitJoinLoop recur sep size parts part
    else
      splitJoinLoop recur sep size parts
        (if current.isEmpty then part else current ++ sep ++ part)

/-- `splitRecursive`, fuel-structural on the depth of the separator list
(each level recurses with its tail, so `seps.length` levels suffice and
the zero-fuel branch is unreachable): a text within `size` stands alone;
otherwise split on the first separator and greedily regroup, recursing
into oversized groups with the remaining separators; with no separator
left, hard-split every `size` runes. -/
def splitRecursiveF (size : Nat) : Nat → List (List Char) → List Char →
    List (List Char)
  | fuel, seps, text =>
    if text.length ≤ size then [text]
    else
      match seps with
      | [] => fixedSplit size text.length text
      | sep :: rest =>
        match fuel with
        | 0 => [text]
        | f + 1 =>
          splitJoinLoop (splitRecursiveF size f rest) sep size
            (splitSeq sep text) []

def splitRecursive (size : Nat) (seps : List (List Char))
    (text : List Char) : List (List Char) :=
  splitRecursiveF size seps.length seps text

/-- The part loop of `chunkRecursive`: trim each piece, drop the empty
ones, and index the kept ones in output order. -/
def chunkRecursiveParts : List (List Char) → Nat → List TextChunk
  | [], _ => []
  | part :: parts, idx =>
    if (trimList part).isEmpty then chunkRecursiveParts parts idx
    else { content := trimList part, index := idx } ::
      chunkRecursiveParts parts (idx + 1)

/-- The separator priority list of `chunkRecursive`: paragraph break,
line break, sentence boundary, word boundary. -/
def goSeparators : List (List Char) :=
  [[Char.ofNat 10, Char.ofNat 10], [Char.ofNat 10], ['.', ' '], [' ']]

def chunkRecursive (text : List Char) (size : Nat) : List TextChunk :=
  chunkRecursiveParts (splitRecursive size goSeparators text) 0

/-- Whether the rune ends a sentence (`.`, `!`, `?`). -/
def isSentenceEnd (c : Char) : Bool := c == '.' || c == '!' || c == '?'

/-- `splitSentences`: accumulate runes, flushing after a sentence-ending
rune followed by a space; the non-empty remainder is the last sentence. -/
def splitSentencesF : List Char → List Char → List (List Char)
  | [], acc => if acc.isEmpty then [] else [acc]
  | c :: rest, acc =>
    if isSentenceEnd c && !rest.isEmpty && rest.headD ' ' == ' ' then
      (acc ++ [c]) :: splitSentencesF rest []
    else
      splitSentencesF rest (acc ++ [c])

def splitSentences (text : List Char) : List (List Char) :=
  splitSentencesF text []

/-- The sentence-accumulation loop of `chunkBySentence`: flush (trimmed)
when appending the next sentence would exceed `size`; the final non-empty
accumulator is flushed trimmed as well. -/
def chunkBySentenceF (size : Nat) : List (List Char) → List Char → Nat →
    List TextChunk
  | [], current, idx =>
    if current.isEmpty then []
    else [{ content := trimList current, index := idx }]
  | s :: ss, current, idx =>
    if current.isEmpty = false ∧ (current ++ s).length > size then
      { content := trimList current, index := idx } ::
        chunkBySentenceF size ss s (idx + 1)
    else
      chunkBySentenceF size ss (current ++ s) idx

def chunkBySentence (text : List Char) (size : Nat) : List TextChunk :=
  chunkBySentenceF size (splitSentences text) [] 0

/-- The size normalization at the top of `defaultChunker.Chunk`:
`ChunkSize ≤ 0` becomes 1000. -/
def normSize (opts : ChunkOptions) : Nat :=
  if opts.chunkSize ≤ 0 then 1000 else opts.chunkSize.toNat

/-- The overlap normalization at the top of `defaultChunker.Chunk`:
negative `ChunkOverlap` becomes 0. -/
def normOverlap (opts : ChunkOptions) : Nat :=
  if opts.chunkOverlap < 0 then 0 else opts.chunkOverlap.toNat

/-- `defaultChunker.Chunk`: normalize the options and dispatch on the
strategy, defaulting to recursive. -/
def Chunk (text : List Char) (opts : ChunkOptions) : List TextChunk :=
  if opts.strategy = "sentence" then chunkBySentence text (normSize opts)
  else if opts.strategy = "fixed" then
    chunkFixed text (normSize opts) (normOverlap opts)
  else chunkRecursive text (normSize opts)
theorem dropWhile_cons_head (p : Char → Bool) (l : List Char) :
    ∀ c cs, l.dropWhile p = c :: cs → p c = false := by
  induction l with
  | nil => intro c cs h; exact List.noConfusion h
  | cons a l' ih =>
    intro c cs h
    by_cases hp : p a
    · rw [List.dropWhile_cons, if_pos hp] at h
      exact ih c cs h
    · rw [List.dropWhile_cons, if_neg hp] at h
      injection h with h1 _
      rw [h1] at hp
      exact Bool.eq_false_iff.mpr hp

theorem dropWhile_eq_nil_of_all (p : Char → Bool) (l : List Char)
    (h : l.all p = true) : l.dropWhile p = [] := by
  induction l with
  | nil => rfl
  | cons a l' ih =>
    simp only [List.all_cons, Bool.and_eq_true] at h
    rw [List.dropWhile_cons, if_pos h.1]
    exact ih h.2

/-- A whitespace-only rune list trims to nothing. -/
theorem trimList_of_all_blank (l : List Char)
    (h : l.all Char.isWhitespace = true) : trimList l = [] := by
  unfold trimList
  rw [dropWhile_eq_nil_of_all Char.isWhitespace l h]
  rfl

/-- A rune list kept by a trimming strategy is not whitespace-only. -/
theorem all_blank_eq_false_of_trim_ne (l : List Char)
    (h : trimList l ≠ []) : l.all Char.isWhitespace = false := by
  by_contra hb
  rw [Bool.not_eq_false] at hb
  exact h (trimList_of_all_blank l hb)

/-- A non-empty trimmed result is itself not whitespace-only: its first
retained rune (from the right-trim pass) is non-whitespace. -/
theorem trim_all_blank_eq_false (l : List Char) (h : trimList l ≠ []) :
    (trimList l).all Char.isWhitespace = false := by
  unfold trimList at h ⊢
  cases hB : (l.dropWhile Char.isWhitespace).reverse.dropWhile Char.isWhitespace with
  | nil => rw [hB] at h; exact absurd rfl h
  | cons c cs =>
    have hc : Char.isWhitespace c = false :=
      dropWhile_cons_head Char.isWhitespace _ c cs hB
    rw [List.all_reverse]
    simp [List.all_cons, hc]
theorem chunkFixedF_indices (runes : List Char) (size step : Nat) :
    ∀ fuel start idx,
      (chunkFixedF runes size step fuel start idx).map TextChunk.index =
        List.range' idx (chunkFixedF runes size step fuel start idx).length := by
  intro fuel
  induction fuel with
  | zero => intro start idx; rfl
  | succ f ih =>
    intro start idx
    rw [chunkFixedF]
    split
    · split
      · exact ih (start + step) idx
      · simp only [List.map_cons, List.length_cons]
        rw [ih (start + step) (idx + 1), List.range'_succ]
    · rfl

theorem chunkRecursiveParts_indices :
    ∀ parts idx,
      (chunkRecursiveParts parts idx).map TextChunk.index =
        List.range' idx (chunkRecursiveParts parts idx).length := by
  intro parts
  induction parts with
  | nil => intro idx; rfl
  | cons part parts ih =>
    intro idx
    rw [chunkRecursiveParts]
    split
    · exact ih idx
    · simp only [List.map_cons, List.length_cons]
      rw [ih (idx + 1), List.range'_succ]

theorem chunkBySentenceF_indices (size : Nat) :
    ∀ ss current idx,
      (chunkBySentenceF size ss current idx).map TextChunk.index =
        List.range' idx (chunkBySentenceF size ss current idx).length := by
  intro ss
  induction ss with
  | nil =>
    intro current idx
    rw [chunkBySentenceF]
    split <;> rfl
  | cons s ss ih =>
    intro current idx
    rw [chunkBySentenceF]
    split
    · simp only [List.map_cons, List.length_cons]
      rw [ih s (idx + 1), List.range'_succ]
    · exact ih (current ++ s) idx

theorem chunkFixedF_nonblank (runes : List Char) (size step : Nat) :
    ∀ fuel start idx ch, ch ∈ chunkFixedF runes size step fuel start idx →
      ch.content.all Char.isWhitespace = false := by
  intro fuel
  induction fuel with
  | zero => intro start idx ch h; exact absurd h (List.not_mem_nil ch)
  | succ f ih =>
    intro start idx ch h
    rw [chunkFixedF] at h
    split at h
    · split at h
      · exact ih (start + step) idx ch h
      · rename_i hne
        rcases List.mem_cons.mp h with rfl | h2
        · exact all_blank_eq_false_of_trim_ne _
            (fun hnil => hne (by rw [hnil]; rfl))
        · exact ih (start + step) (idx + 1) ch h2
    · exact absurd h (List.not_mem_nil ch)

theorem chunkRecursiveParts_nonblank :
    ∀ parts idx ch, ch ∈ chunkRecursiveParts parts idx →
      ch.content.all Char.isWhitespace = false := by
  intro parts
  induction parts with
  | nil => intro idx ch h; exact absurd h (List.not_mem_nil ch)
  | cons part parts ih =>
    intro idx ch h
    rw [chunkRecursiveParts] at h
    split at h
    · exact ih idx ch h
    · rename_i hne
      rcases List.mem_cons.mp h with rfl | h2
      · exact trim_all_blank_eq_false part
          (fun hnil => hne (by rw [hnil]; rfl))
      · exact ih (idx + 1) ch h2
/-- C8 amended: every strategy assigns zero-based contiguous ordinals in
output order; the fixed and recursive strategies (every non-"sentence"
dispatch) additionally drop empty and whitespace-only pieces, so none of
their chunks is whitespace-only.  (The sentence strategy can emit a chunk
whose trimmed content is empty — see the counterexample.) -/
theorem chunk_ordinals_contiguous_and_nonsentence_nonblank
    (text : List Char) (opts : ChunkOptions) :
    ((Chunk text opts).map TextChunk.index =
      List.range (Chunk text opts).length) ∧
    (opts.strategy ≠ "sentence" →
      ∀ ch ∈ Chunk text opts, ch.content.all Char.isWhitespace = false) := by
  constructor
  · rw [List.range_eq_range']
    unfold Chunk
    split
    · exact chunkBySentenceF_indices (normSize opts) (splitSentences text) [] 0
    · split
      · exact chunkFixedF_indices text (normSize opts) _ text.length 0 0
      · exact chunkRecursiveParts_indices
          (splitRecursive (normSize opts) goSeparators text) 0
  · intro hstrat ch hch
    unfold Chunk at hch
    rw [if_neg hstrat] at hch
    split at hch
    · exact chunkFixedF_nonblank text (normSize opts) _ text.length 0 0 ch hch
    · exact chunkRecursiveParts_nonblank
        (splitRecursive (normSize opts) goSeparators text) 0 ch hch

def optsSentence : ChunkOptions :=
  { chunkSize := 10, chunkOverlap := 0, strategy := "sentence" }

/-- C8 counterexample: on a whitespace-only input the sentence strategy
returns a chunk whose content is empty — an empty/whitespace-only piece
that was not dropped, contradicting the claim for the sentence
strategy. -/
theorem chunk_sentence_keeps_blank_counterexample :
    Chunk ("   ".toList) optsSentence = [{ content := [], index := 0 }] ∧
    ∃ ch ∈ Chunk ("   ".toList) optsSentence,
      ch.content = [] ∧ ch.content.all Char.isWhitespace = true := by
  refine ⟨rfl, ⟨{ content := [], index := 0 }, ?_, rfl, rfl⟩⟩
  rw [show Chunk ("   ".toList) optsSentence =
        [{ content := [], index := 0 }] from rfl]
  exact List.mem_singleton_self _

def optsFixedC8 : ChunkOptions :=
  { chunkSize := 3, chunkOverlap := 0, strategy := "fixed" }

/-- Witness for the amended C8 on a concrete fixed-strategy chunking. -/
theorem chunk_ordinals_contiguous_and_nonsentence_nonblank_witness :
    ((Chunk ("ab cd".toList) optsFixedC8).map TextChunk.index =
      List.range (Chunk ("ab cd".toList) optsFixedC8).length) ∧
    (∀ ch ∈ Chunk ("ab cd".toList) optsFixedC8,
      ch.content.all Char.isWhitespace = false) :=
  ⟨(chunk_ordinals_contiguous_and_nonsentence_nonblank
      ("ab cd".toList) optsFixedC8).1,
   (chunk_ordinals_contiguous_and_nonsentence_nonblank
      ("ab cd".toList) optsFixedC8).2 (by decide)⟩
